import Mathlib

/-!
Verification development for the Windows route-manager core of the
mullvadvpn-app repository.  The definitions below are a shallow embedding of
`talpid-core/src/routing/windows/route_manager.rs`,
`talpid-core/src/routing/windows/mod.rs` and
`talpid-core/src/winnet_rs/mod.rs`.  Machine integers are modelled as `Nat`
(or `Int` for OS status codes), OS calls are modelled by an explicit
forwarding-table state plus a fault-injection script, and panics are modelled
by `Option` (with `none` standing for a panic).
-/

/-- Decidable equality for `Except` (not provided by the core library). -/
instance {ε α : Type} [DecidableEq ε] [DecidableEq α] : DecidableEq (Except ε α) := fun a b =>
  match a, b with
  | .error x, .error y =>
    if h : x = y then isTrue (congrArg Except.error h)
    else isFalse (fun c => h (by injection c))
  | .ok x, .ok y =>
    if h : x = y then isTrue (congrArg Except.ok h)
    else isFalse (fun c => h (by injection c))
  | .error _, .ok _ => isFalse (fun c => Except.noConfusion c)
  | .ok _, .error _ => isFalse (fun c => Except.noConfusion c)

/-- Address family, `{v4, v6}`. -/
inductive AddressFamily
| Ipv4
| Ipv6
deriving DecidableEq

/-- An IP address: a family tag together with the address bits. -/
inductive IpAddr
| v4 (a : Nat)
| v6 (a : Nat)
deriving DecidableEq

/-- `IpAddr::is_unspecified`: the all-zero address of either family. -/
def IpAddr.is_unspecified : IpAddr → Bool
| .v4 a => a == 0
| .v6 a => a == 0

/-- `IpAddr::is_ipv4`. -/
def IpAddr.is_ipv4 : IpAddr → Bool
| .v4 _ => true
| .v6 _ => false

/-- `std::net::SocketAddr`: an address plus a port. -/
structure SocketAddr where
  ip : IpAddr
  port : Nat
deriving DecidableEq

/-- The OS constant `AF_INET`. -/
def AF_INET : Nat := 2

/-- The OS constant `AF_INET6`. -/
def AF_INET6 : Nat := 23

/-- `SOCKADDR_INET`: a family discriminant plus address and port bits. -/
structure SockaddrInet where
  si_family : Nat
  addr : Nat
  port : Nat
deriving DecidableEq

/-- `talpid-core/src/windows.rs::inet_sockaddr_from_socketaddr`. -/
def inet_sockaddr_from_socketaddr : SocketAddr → SockaddrInet
| ⟨.v4 a, p⟩ => ⟨AF_INET, a, p⟩
| ⟨.v6 a, p⟩ => ⟨AF_INET6, a, p⟩

/-- `talpid-core/src/windows.rs::try_socketaddr_from_inet_sockaddr`: fails on a
family that is neither `AF_INET` nor `AF_INET6`. -/
def try_socketaddr_from_inet_sockaddr (s : SockaddrInet) : Except Unit SocketAddr :=
  if s.si_family == AF_INET then .ok ⟨.v4 s.addr, s.port⟩
  else if s.si_family == AF_INET6 then .ok ⟨.v6 s.addr, s.port⟩
  else .error ()

/-- `ipnetwork::IpNetwork`: a network address plus a prefix length in bits. -/
structure IpNetwork where
  ip : IpAddr
  plen : Nat
deriving DecidableEq

/-- `IpNetwork::is_ipv4`. -/
def IpNetwork.is_ipv4 (n : IpNetwork) : Bool := n.ip.is_ipv4

namespace RouteManager

/-- `route_manager.rs::ipnetwork_to_address_family`. -/
def ipnetwork_to_address_family (n : IpNetwork) : AddressFamily :=
  if n.is_ipv4 then .Ipv4 else .Ipv6

/-- `IP_ADDRESS_PREFIX`: a `SOCKADDR_INET` plus a length. -/
structure IpAddressPfx where
  pfx : SockaddrInet
  len : Nat
deriving DecidableEq

/-- `route_manager.rs::win_ip_address_prefix_from_ipnetwork_port_zero`:
converts an `IpNetwork` to an `IP_ADDRESS_PREFIX`, setting the port to 0. -/
def win_ip_address_pfx_port_zero (n : IpNetwork) : IpAddressPfx :=
  ⟨inet_sockaddr_from_socketaddr ⟨n.ip, 0⟩, n.plen⟩

/-- `route_manager.rs::inet_sockaddr_from_ipaddr`. -/
def inet_sockaddr_from_ipaddr (ip : IpAddr) : SockaddrInet :=
  inet_sockaddr_from_socketaddr ⟨ip, 0⟩

/-- `MIB_IPFORWARD_ROW2` restricted to the fields `route_manager.rs` writes. -/
structure ForwardEntry where
  InterfaceLuid : Nat
  Dest : IpAddressPfx
  NextHop : SockaddrInet
  Metric : Nat
  Protocol : Nat
  Origin : Nat
deriving DecidableEq

/-- Windows status `NO_ERROR`. -/
def NO_ERROR : Int := 0

/-- Windows status `ERROR_NOT_FOUND`. -/
def ERROR_NOT_FOUND : Int := 1168

/-- Windows status `ERROR_OBJECT_ALREADY_EXISTS`. -/
def ERROR_OBJECT_ALREADY_EXISTS : Int := 5010

/-- Route protocol `MIB_IPPROTO_NETMGMT`. -/
def MIB_IPPROTO_NETMGMT : Nat := 3

/-- Route origin `NlroManual`. -/
def NlroManual : Nat := 0

/-- The identifying key of a forwarding-table entry: Windows identifies a row
by interface, destination and next hop. -/
structure EntryKey where
  luid : Nat
  dest : IpAddressPfx
  next_hop : SockaddrInet
deriving DecidableEq

/-- Key of a `ForwardEntry`. -/
def entry_key (e : ForwardEntry) : EntryKey :=
  ⟨e.InterfaceLuid, e.Dest, e.NextHop⟩

/-- Whether `f` occupies the same table slot as the probe `e`. -/
def key_match (e f : ForwardEntry) : Bool :=
  entry_key e == entry_key f

/-- A scripted response of one OS forwarding-table call: either nominal
behaviour or an injected fault code (returned with no table mutation). -/
inductive OsResp
| normal
| fault (code : Int)
deriving DecidableEq

/-- Trace of issued OS forwarding-table calls. -/
inductive OsCall
| create (e : ForwardEntry)
| set (e : ForwardEntry)
| delete (e : ForwardEntry)
deriving DecidableEq

/-- The OS side of the embedding: the forwarding table, the remaining
fault-injection script (empty script means every call behaves nominally) and
the trace of calls made so far. -/
structure OsState where
  table : List ForwardEntry
  script : List OsResp
  trace : List OsCall
deriving DecidableEq

/-- Pop the next scripted response (nominal when the script is exhausted). -/
def OsState.pop (os : OsState) : OsResp × OsState :=
  match os.script with
  | [] => (.normal, os)
  | r :: rest => (r, { os with script := rest })

/-- Replace the first element satisfying `p` by `x`. -/
def replace_first {α : Type} (p : α → Bool) (x : α) : List α → List α
| [] => []
| a :: rest => if p a then x :: rest else a :: replace_first p x rest

/-- `CreateIpForwardEntry2`: nominally, inserts the entry unless a row with
the same key exists, in which case it reports `ERROR_OBJECT_ALREADY_EXISTS`. -/
def CreateIpForwardEntry2 (e : ForwardEntry) (os : OsState) : Int × OsState :=
  let (resp, os1) := os.pop
  let os2 := { os1 with trace := os1.trace ++ [.create e] }
  match resp with
  | .fault c => (c, os2)
  | .normal =>
    if os2.table.any (key_match e) then (ERROR_OBJECT_ALREADY_EXISTS, os2)
    else (NO_ERROR, { os2 with table := os2.table ++ [e] })

/-- `SetIpForwardEntry2`: nominally, overwrites the row with the same key, or
reports `ERROR_NOT_FOUND` when no such row exists. -/
def SetIpForwardEntry2 (e : ForwardEntry) (os : OsState) : Int × OsState :=
  let (resp, os1) := os.pop
  let os2 := { os1 with trace := os1.trace ++ [.set e] }
  match resp with
  | .fault c => (c, os2)
  | .normal =>
    if os2.table.any (key_match e) then
      (NO_ERROR, { os2 with table := replace_first (key_match e) e os2.table })
    else (ERROR_NOT_FOUND, os2)

/-- `DeleteIpForwardEntry2`: nominally, removes the row with the same key, or
reports `ERROR_NOT_FOUND` when no such row exists. -/
def DeleteIpForwardEntry2 (e : ForwardEntry) (os : OsState) : Int × OsState :=
  let (resp, os1) := os.pop
  let os2 := { os1 with trace := os1.trace ++ [.delete e] }
  match resp with
  | .fault c => (c, os2)
  | .normal =>
    if os2.table.any (key_match e) then
      (NO_ERROR, { os2 with table := os2.table.eraseP (key_match e) })
    else (ERROR_NOT_FOUND, os2)

/-- `crate::routing::NetNode`, with `RealNode`'s device name and optional
gateway address inlined (the source's `Node` struct). -/
inductive NetNode
| DefaultNode
| RealNode (device : Option String) (address : Option IpAddr)
deriving DecidableEq

/-- `route_manager.rs::Route`. -/
structure Route where
  network : IpNetwork
  node : NetNode
deriving DecidableEq

/-- `route_manager.rs::RegisteredRoute`: the concrete triple written into the
OS table. -/
structure RegisteredRoute where
  network : IpNetwork
  luid : Nat
  next_hop : SocketAddr
deriving DecidableEq

/-- The `PartialEq` implementation of `RegisteredRoute`: compares the luid
value, the next hop and the network, in that order. -/
def registered_route_eq (a b : RegisteredRoute) : Bool :=
  a.luid == b.luid && a.next_hop == b.next_hop && a.network == b.network

/-- `route_manager.rs::RouteRecord`. -/
structure RouteRecord where
  route : Route
  registered_route : RegisteredRoute
deriving DecidableEq

/-- `route_manager.rs::RecordEventType`. -/
inductive RecordEventType
| AddRoute
| DeleteRoute
deriving DecidableEq

/-- `route_manager.rs::EventEntry` (one undo-log entry). -/
structure EventEntry where
  record : RouteRecord
  event_type : RecordEventType
deriving DecidableEq

/-- Shorthand for the undo-log entry recorded after a successful add. -/
def add_event (record : RouteRecord) : EventEntry :=
  { record := record, event_type := .AddRoute }

/-- The interface/gateway pair produced by node resolution. -/
structure InterfaceAndGateway where
  iface : Nat
  gateway : SocketAddr
deriving DecidableEq

/-- `routing/windows/mod.rs::Error`, restricted to the variants the embedded
functions produce. -/
inductive Error
| AddToRouteTable (code : Int)
| DeleteFromRouteTable (code : Int)
| NoDefaultRoute
| DeviceNameNotFound
| DeviceGatewayNotFound
| InvalidSiFamily
| Conversion
| GetDefaultRoute
| GetMtu
deriving DecidableEq

/-- Environment of the route-manager embedding: the collaborators that live
outside `route_manager.rs` (the best-default-route query, the OS
alias-to-luid conversion, and the adapter scan of
`interface_luid_from_gateway`), abstracted as oracles. -/
structure Env where
  get_best_default_route : AddressFamily → Except Error (Option InterfaceAndGateway)
  convert_alias_to_luid : String → Option Nat
  interface_luid_from_gateway : SockaddrInet → Except Error Nat

/-- Value of one hexadecimal digit character. -/
def hex_digit_val (c : Char) : Option Nat :=
  if '0' ≤ c ∧ c ≤ '9' then some (c.toNat - '0'.toNat)
  else if 'a' ≤ c ∧ c ≤ 'f' then some (c.toNat - 'a'.toNat + 10)
  else if 'A' ≤ c ∧ c ≤ 'F' then some (c.toNat - 'A'.toNat + 10)
  else none

/-- `u64::from_str_radix(_, 16)` on a character list: an optional leading `+`
followed by a non-empty run of hex digits. -/
def from_str_radix_16 (s : List Char) : Option Nat :=
  let digits := match s with
    | '+' :: rest => rest
    | _ => s
  match digits with
  | [] => none
  | _ =>
    digits.foldl
      (fun acc c =>
        match acc, hex_digit_val c with
        | some v, some d => some (v * 16 + d)
        | _, _ => none)
      (some 0)

/-- The fixed length of a string-encoded LUID (`?` plus 16 hex digits). -/
def STRING_ENCODED_LUID_LENGTH : Nat := 17

/-- `route_manager.rs::parse_string_encoded_luid`: `ok none` when the name is
not in the `?`-encoded form, `Conversion` when it is but the digits fail to
parse. -/
def parse_string_encoded_luid (encoded_luid : String) : Except Error (Option Nat) :=
  let cs := encoded_luid.toList
  if cs.length ≠ STRING_ENCODED_LUID_LENGTH ∨ cs.head? ≠ some '?' then
    .ok none
  else
    match from_str_radix_16 (cs.drop 1) with
    | none => .error .Conversion
    | some v => .ok (some v)

/-- `route_manager.rs::resolve_node`.  `none` models the panic on a
`RealNode` that has neither a device name nor an address. -/
def resolve_node (env : Env) (family : AddressFamily) (optional_node : NetNode) :
    Option (Except Error InterfaceAndGateway) :=
  match optional_node with
  | .DefaultNode =>
    match env.get_best_default_route family with
    | .error e => some (.error e)
    | .ok none => some (.error .NoDefaultRoute)
    | .ok (some default_route) => some (.ok default_route)
  | .RealNode device address =>
    match device with
    | some device_name =>
      match parse_string_encoded_luid device_name with
      | .error e => some (.error e)
      | .ok parsed =>
        match (match parsed with
               | some luid => Except.ok luid
               | none =>
                 match env.convert_alias_to_luid device_name with
                 | some luid => Except.ok luid
                 | none => Except.error Error.DeviceNameNotFound) with
        | .error e => some (.error e)
        | .ok luid =>
          some (.ok
            { iface := luid
              gateway :=
                match address with
                | some ip => ⟨ip, 0⟩
                | none =>
                  match family with
                  | .Ipv4 => ⟨.v4 0, 0⟩
                  | .Ipv6 => ⟨.v6 0, 0⟩ })
    | none =>
      match address with
      | none => none
      | some ip =>
        let gateway := inet_sockaddr_from_ipaddr ip
        match env.interface_luid_from_gateway gateway with
        | .error e => some (.error e)
        | .ok iface =>
          match try_socketaddr_from_inet_sockaddr gateway with
          | .error _ => some (.error .InvalidSiFamily)
          | .ok gw => some (.ok { iface := iface, gateway := gw })

/-- The `MIB_IPFORWARD_ROW2` built by `add_into_routing_table` (and by
`restore_into_routing_table`): metric 0, protocol `MIB_IPPROTO_NETMGMT`,
origin `NlroManual`. -/
def mk_forward_entry (node : InterfaceAndGateway) (network : IpNetwork) : ForwardEntry :=
  { InterfaceLuid := node.iface
    Dest := win_ip_address_pfx_port_zero network
    NextHop := inet_sockaddr_from_socketaddr node.gateway
    Metric := 0
    Protocol := MIB_IPPROTO_NETMGMT
    Origin := NlroManual }

/-- The zeroed `MIB_IPFORWARD_ROW2` built by `delete_from_routing_table`. -/
def mk_delete_row (route : RegisteredRoute) : ForwardEntry :=
  { InterfaceLuid := route.luid
    Dest := win_ip_address_pfx_port_zero route.network
    NextHop := inet_sockaddr_from_socketaddr route.next_hop
    Metric := 0
    Protocol := 0
    Origin := 0 }

/-- `route_manager.rs::RouteManagerInternal::add_into_routing_table`. -/
def add_into_routing_table (env : Env) (route : Route) (os : OsState) :
    Option (Except Error RegisteredRoute × OsState) :=
  match resolve_node env (ipnetwork_to_address_family route.network) route.node with
  | none => none
  | some (.error e) => some (.error e, os)
  | some (.ok node) =>
    let spec := mk_forward_entry node route.network
    match CreateIpForwardEntry2 spec os with
    | (status0, os1) =>
      match (if ERROR_OBJECT_ALREADY_EXISTS == status0 then SetIpForwardEntry2 spec os1
             else (status0, os1)) with
      | (status, os2) =>
        if NO_ERROR ≠ status then
          some (.error (.AddToRouteTable status), os2)
        else
          some (.ok { network := route.network, luid := node.iface, next_hop := node.gateway }, os2)

/-- `route_manager.rs::RouteManagerInternal::find_route_record`. -/
def find_route_record (records : List RouteRecord) (route : RegisteredRoute) : Option Nat :=
  records.findIdx? (fun record => registered_route_eq route record.registered_route)

/-- `route_manager.rs::RouteManagerInternal::delete_from_routing_table`:
`ERROR_NOT_FOUND` is demoted to success with a warning. -/
def delete_from_routing_table (route : RegisteredRoute) (os : OsState) :
    Except Error Unit × OsState :=
  match DeleteIpForwardEntry2 (mk_delete_row route) os with
  | (status, os1) =>
    if status == ERROR_NOT_FOUND then (.ok (), os1)
    else if status == NO_ERROR then (.ok (), os1)
    else (.error (.DeleteFromRouteTable status), os1)

/-- `route_manager.rs::RouteManagerInternal::restore_into_routing_table`. -/
def restore_into_routing_table (route : RegisteredRoute) (os : OsState) :
    Except Error Unit × OsState :=
  let spec : ForwardEntry :=
    { InterfaceLuid := route.luid
      Dest := win_ip_address_pfx_port_zero route.network
      NextHop := inet_sockaddr_from_socketaddr route.next_hop
      Metric := 0
      Protocol := MIB_IPPROTO_NETMGMT
      Origin := NlroManual }
  match CreateIpForwardEntry2 spec os with
  | (status, os1) =>
    if NO_ERROR ≠ status then (.error (.AddToRouteTable status), os1)
    else (.ok (), os1)

/-- Worker of `undo_events`, processing the already-reversed undo log.
`none` models the `.expect` panics on an undo-log entry whose record is
absent from the store. -/
def undo_go : List EventEntry → Except Error Unit → List RouteRecord → OsState →
    Option (Except Error Unit × List RouteRecord × OsState)
| [], result, records, os => some (result, records, os)
| event :: rest, result, records, os =>
  match event.event_type with
  | .AddRoute =>
    match find_route_record records event.record.registered_route with
    | none => none
    | some record_idx =>
      match records.get? record_idx with
      | none => none
      | some record =>
        match delete_from_routing_table record.registered_route os with
        | (.error e, os1) =>
          undo_go rest (if result.isOk then .error e else result) records os1
        | (.ok _, os1) =>
          undo_go rest result (records.eraseIdx record_idx) os1
  | .DeleteRoute =>
    match restore_into_routing_table event.record.registered_route os with
    | (.error e, os1) =>
      undo_go rest (if result.isOk then .error e else result) records os1
    | (.ok _, os1) =>
      undo_go rest result (records ++ [event.record]) os1

/-- `route_manager.rs::RouteManagerInternal::undo_events`: rewinds the undo
log in reverse order, keeping the first rollback error. -/
def undo_events (event_log : List EventEntry) (records : List RouteRecord) (os : OsState) :
    Option (Except Error Unit × List RouteRecord × OsState) :=
  undo_go event_log.reverse (.ok ()) records os

/-- Loop body of `add_routes`.  On a failing add it runs `undo_events`; the
`map_err` closure in the source makes the returned error the rollback's
error when the rollback itself failed, and the original error otherwise. -/
def add_routes_go (env : Env) : List Route → List EventEntry → List RouteRecord → OsState →
    Option (Except Error Unit × List RouteRecord × OsState)
| [], _, records, os => some (.ok (), records, os)
| route :: rest, event_log, records, os =>
  match add_into_routing_table env route os with
  | none => none
  | some (.error e, os1) =>
    match undo_events event_log records os1 with
    | none => none
    | some (undo_result, records1, os2) =>
      some (.error (match undo_result with | .error ue => ue | .ok _ => e), records1, os2)
  | some (.ok registered_route, os1) =>
    let new_record : RouteRecord := { route := route, registered_route := registered_route }
    let event_log1 := event_log ++ [add_event new_record]
    let records1 :=
      match find_route_record records new_record.registered_route with
      | none => records ++ [new_record]
      | some idx => records.set idx new_record
    add_routes_go env rest event_log1 records1 os1

/-- `route_manager.rs::RouteManagerInternal::add_routes`. -/
def add_routes (env : Env) (new_routes : List Route) (records : List RouteRecord)
    (os : OsState) : Option (Except Error Unit × List RouteRecord × OsState) :=
  add_routes_go env new_routes [] records os

/-- Delete loop of `delete_applied_routes`: best-effort delete of every
record, ignoring failures. -/
def delete_applied_routes_go : List RouteRecord → OsState → OsState
| [], os => os
| record :: rest, os =>
  delete_applied_routes_go rest (delete_from_routing_table record.registered_route os).2

/-- `route_manager.rs::RouteManagerInternal::delete_applied_routes`: deletes
every recorded entry (logging failures), then empties the store and returns
success. -/
def delete_applied_routes (records : List RouteRecord) (os : OsState) :
    Except Error Unit × List RouteRecord × OsState :=
  (.ok (), [], delete_applied_routes_go records os)

/-- Key of the table row written or deleted for a registered route. -/
def rr_key (r : RegisteredRoute) : EntryKey :=
  ⟨r.luid, win_ip_address_pfx_port_zero r.network, inet_sockaddr_from_socketaddr r.next_hop⟩

/-- The table rows the manager owns: those whose key matches some record of
the given store. -/
def owned_entries (records0 : List RouteRecord) (table : List ForwardEntry) :
    List ForwardEntry :=
  table.filter (fun e => records0.any (fun rec => entry_key e == rr_key rec.registered_route))

/-- The registered route a spec will resolve to (when resolution succeeds). -/
def resolved_rr (env : Env) (r : Route) : Option RegisteredRoute :=
  match resolve_node env (ipnetwork_to_address_family r.network) r.node with
  | some (.ok node) => some ⟨r.network, node.iface, node.gateway⟩
  | _ => none

end RouteManager

namespace WinNet

/-- `winnet_rs/mod.rs::Error`. -/
inductive Error
| InvalidSiFamily
| Conversion
| WindowsApi
deriving DecidableEq

/-- `MIB_IPFORWARD_ROW2` restricted to the fields `winnet_rs/mod.rs` reads:
the destination's prefix length and family discriminant, the next hop, the
raw 64-bit interface LUID, the interface index and the route metric. -/
structure Row where
  DestPfxLen : Nat
  DestFamily : Nat
  NextHop : SockaddrInet
  InterfaceLuid : Nat
  InterfaceIndex : Nat
  Metric : Nat
deriving DecidableEq

/-- Size in bytes of a `MIB_IPFORWARD_ROW2` (the value of
`std::mem::size_of` in the guard of `get_table_entry`). -/
def ROW_SIZE : Nat := 104

/-- `isize::MAX` on a 64-bit target. -/
def ISIZE_MAX : Nat := 2 ^ 63 - 1

/-- `MibIpforwardTable2::num_entries`; the snapshot is modelled as the list
of its rows. -/
def num_entries (table : List Row) : Nat := table.length

/-- `MibIpforwardTable2::get_table_entry`, exactly as written in
`winnet_rs/mod.rs`: the guard returns `None` when
`i < num_entries ∨ i * size_of::<MIB_IPFORWARD_ROW2>() < isize::MAX`. -/
def get_table_entry (table : List Row) (i : Nat) : Option Row :=
  if i < num_entries table ∨ i * ROW_SIZE < ISIZE_MAX then none
  else table.get? i

/-- `winnet_rs/mod.rs::ip_from_native`. -/
def ip_from_native (from_addr : SockaddrInet) : Except Error SocketAddr :=
  match try_socketaddr_from_inet_sockaddr from_addr with
  | .ok s => .ok s
  | .error _ => .error .InvalidSiFamily

/-- `winnet_rs/mod.rs::route_has_gateway`: the next hop converts to a socket
address and is not the family's unspecified address. -/
def route_has_gateway (route : Row) : Bool :=
  match ip_from_native route.NextHop with
  | .ok sock => !sock.ip.is_unspecified
  | .error _ => false

/-- `IF_TYPE_SOFTWARE_LOOPBACK`. -/
def IF_TYPE_SOFTWARE_LOOPBACK : Nat := 24

/-- `IF_TYPE_TUNNEL`. -/
def IF_TYPE_TUNNEL : Nat := 131

/-- UTF-16 code units of `"WireGuard"`. -/
def DESC_WIREGUARD : List Nat := [87, 105, 114, 101, 71, 117, 97, 114, 100]

/-- UTF-16 code units of `"Wintun"`. -/
def DESC_WINTUN : List Nat := [87, 105, 110, 116, 117, 110]

/-- UTF-16 code units of `"Tunnel"`. -/
def DESC_TUNNEL : List Nat := [84, 117, 110, 110, 101, 108]

/-- Whether the first list is an initial segment of the second. -/
def starts_with_slice : List Nat → List Nat → Bool
| [], _ => true
| _ :: _, [] => false
| p :: ps, x :: xs => p == x && starts_with_slice ps xs

/-- The `windows(len).any(..)` substring test of
`is_route_on_physical_interface`: whether `pat` occurs contiguously in the
second list. -/
def contains_slice (pat : List Nat) : List Nat → Bool
| [] => starts_with_slice pat []
| x :: xs => starts_with_slice pat (x :: xs) || contains_slice pat xs

/-- Environment of the winnet embedding: `GetIfEntry2` (returning the
adapter description, `none` on failure) and `GetIpInterfaceEntry` (keyed by
family and LUID, returning the `Connected` flag and the interface metric,
`none` on failure). -/
structure Env where
  if_entry_description : Nat → Option (List Nat)
  ip_interface_entry : Nat → Nat → Option (Nat × Nat)

/-- `winnet_rs/mod.rs::is_route_on_physical_interface`: rejects loopback and
tunnel interface types (low 16 bits of the raw LUID, as the source masks
them) and adapters whose description contains one of the virtual-adapter
substrings. -/
def is_route_on_physical_interface (env : Env) (route : Row) : Except Error Bool :=
  let if_type := route.InterfaceLuid % 65536
  if if_type == IF_TYPE_SOFTWARE_LOOPBACK ∨ if_type == IF_TYPE_TUNNEL then .ok false
  else
    match env.if_entry_description route.InterfaceLuid with
    | none => .error .WindowsApi
    | some row_description =>
      if contains_slice DESC_WIREGUARD row_description
          ∨ contains_slice DESC_WINTUN row_description
          ∨ contains_slice DESC_TUNNEL row_description then .ok false
      else .ok true

/-- `winnet_rs/mod.rs::InterfaceAndGateway`. -/
structure InterfaceAndGateway where
  iface : Nat
  gateway : SockaddrInet
deriving DecidableEq

/-- `winnet_rs/mod.rs::AnnotatedRoute`. -/
structure AnnotatedRoute where
  route : Row
  effective_metric : Nat
deriving DecidableEq

/-- `winnet_rs/mod.rs::annotated_routes`: looks up each candidate's
ip-interface record, drops rows whose lookup fails or whose interface is not
connected, and annotates survivors with route metric + interface metric. -/
def annotated_routes (env : Env) (routes : List Row) : List AnnotatedRoute :=
  routes.filterMap (fun route =>
    match env.ip_interface_entry route.DestFamily route.InterfaceLuid with
    | none => none
    | some (connected, iface_metric) =>
      if connected == 0 then none
      else some { route := route, effective_metric := route.Metric + iface_metric })

/-- The comparator passed to `sort_by` in `get_best_default_internal`. -/
def le_metric (lhs rhs : AnnotatedRoute) : Bool :=
  lhs.effective_metric ≤ rhs.effective_metric

/-- The `annotated.sort_by(..)` call: Rust's `sort_by` is a stable sort,
modelled by the (stable) `List.mergeSort`. -/
def sort_annotated (annotated : List AnnotatedRoute) : List AnnotatedRoute :=
  annotated.mergeSort le_metric

/-- The candidate-collection loop of `get_best_default_internal`: for each
index the row is obtained via `get_table_entry(i).unwrap()` (`none` models
that unwrap panicking), then kept when it has prefix length 0, a gateway,
and lies on a physical interface (whose check may fail the whole call). -/
def gbdi_go (env : Env) (table : List Row) : Nat → Nat → Option (Except Error (List Row))
| _, 0 => some (.ok [])
| i, fuel + 1 =>
  match get_table_entry table i with
  | none => none
  | some candidate =>
    match (if 0 == candidate.DestPfxLen ∧ route_has_gateway candidate then
             is_route_on_physical_interface env candidate
           else Except.ok false) with
    | .error e => some (.error e)
    | .ok keep =>
      match gbdi_go env table (i + 1) fuel with
      | none => none
      | some (.error e) => some (.error e)
      | some (.ok rest) => some (.ok (if keep then candidate :: rest else rest))

/-- `winnet_rs/mod.rs::get_best_default_internal`, given the snapshot.
The outer `Option` models panics; the `Except` models `Result`. -/
def get_best_default_internal (env : Env) (table : List Row) :
    Option (Except Error (Option InterfaceAndGateway)) :=
  match gbdi_go env table 0 (num_entries table) with
  | none => none
  | some (.error e) => some (.error e)
  | some (.ok candidates) =>
    let annotated := annotated_routes env candidates
    if annotated.isEmpty then some (.ok none)
    else
      let sorted := sort_annotated annotated
      some (.ok (sorted.head?.map
        (fun best => ⟨best.route.InterfaceLuid, best.route.NextHop⟩)))

end WinNet

namespace Mtu

/-- `winnet_rs/mod.rs::WinNetDefaultRoute` (an interface LUID plus the
gateway socket address). -/
structure DefaultRoute where
  interface_luid : Nat
  gateway : SocketAddr
deriving DecidableEq

/-- Environment of the MTU-query embedding.  Modelled from the spec: the
best-default lookup (`routing/windows/get_best_default_route.rs`) and
`crate::windows::get_ip_interface_entry` are not part of the provided
sources; they are abstracted as oracles returning the best default route of
a family and the `NlMtu` field of an interface's ip-interface record. -/
structure Env where
  get_best_default_route : AddressFamily → Except RouteManager.Error (Option DefaultRoute)
  get_ip_interface_entry : AddressFamily → Nat → Except Unit Nat

/-- `routing/windows/mod.rs::get_mtu_for_route`: reads the best default's
interface MTU; any failure (including an MTU that does not fit in `u16`)
becomes `GetMtu`; an absent best default is `ok none`. -/
def get_mtu_for_route (env : Env) (addr_family : AddressFamily) :
    Except RouteManager.Error (Option Nat) :=
  match env.get_best_default_route addr_family with
  | .ok (some route) =>
    match env.get_ip_interface_entry addr_family route.interface_luid with
    | .error _ => .error .GetMtu
    | .ok mtu =>
      if mtu < 65536 then .ok (some mtu) else .error .GetMtu
  | .ok none => .ok none
  | .error _ => .error .GetMtu

/-- `routing/windows/mod.rs::RouteManagerHandle::get_mtu_for_route`: resolves
the family from the address, then maps an absent best default to `GetMtu`. -/
def handle_get_mtu_for_route (env : Env) (ip : IpAddr) : Except RouteManager.Error Nat :=
  let addr_family := if ip.is_ipv4 then AddressFamily.Ipv4 else AddressFamily.Ipv6
  match get_mtu_for_route env addr_family with
  | .ok (some mtu) => .ok mtu
  | .ok none => .error .GetMtu
  | .error e => .error e

end Mtu

namespace WinNetRm

/-- `winnet_rs/route_manager.rs::RegisteredRoute` duplicates the
`routing/windows` data type with the same three fields (network, luid,
next hop), so the structure is shared; this is that module's `PartialEq`
implementation, which compares only `luid.Value` (the source marks it
`FIXME: This might be an invalid implementation`). -/
def registered_route_eq (a b : RouteManager.RegisteredRoute) : Bool :=
  a.luid == b.luid

/-- `winnet_rs/route_manager.rs::RouteManagerInternal::find_route_record`:
first position whose record's registered route compares equal under the
luid-only equality above. -/
def find_route_record (records : List RouteManager.RouteRecord)
    (route : RouteManager.RegisteredRoute) : Option Nat :=
  records.findIdx? (fun record => registered_route_eq route record.registered_route)

end WinNetRm

namespace Concrete

open RouteManager

/-- A concrete route-manager environment: no best default route, no adapter
aliases, no adapters with a matching gateway. -/
def envW : RouteManager.Env :=
  { get_best_default_route := fun _ => .ok none
    convert_alias_to_luid := fun _ => none
    interface_luid_from_gateway := fun _ => .error .DeviceGatewayNotFound }

/-- The network 10.0.0.0/24. -/
def netA : IpNetwork := ⟨.v4 167772160, 24⟩

/-- A spec naming its interface by string-encoded LUID `0xdeadbeef`. -/
def grW : RouteManager.Route := ⟨netA, .RealNode (some "?00000000deadbeef") none⟩

/-- The registered route `grW` resolves to (on-link next hop). -/
def rrW : RegisteredRoute := ⟨netA, 3735928559, ⟨.v4 0, 0⟩⟩

/-- A spec that needs the default route (which `envW` reports as absent). -/
def brW : RouteManager.Route := ⟨⟨.v4 0, 0⟩, .DefaultNode⟩

/-- A store record whose registered route equals the one `grW` resolves to. -/
def recA : RouteRecord := ⟨grW, rrW⟩

/-- The table row realizing `recA`. -/
def entryA : ForwardEntry := mk_forward_entry ⟨3735928559, ⟨.v4 0, 0⟩⟩ netA

/-- An empty OS state with a nominal (empty) fault script. -/
def osEmpty : OsState := ⟨[], [], []⟩

/-- OS state whose table realizes `recA`, with a nominal script. -/
def osA : OsState := ⟨[entryA], [], []⟩

/-- A second resolvable spec (LUID `0xabc`, network 192.168.0.0/24). -/
def grX : RouteManager.Route :=
  ⟨⟨.v4 3232235520, 24⟩, .RealNode (some "?0000000000000abc") none⟩

/-- A registered route sharing `rrW`'s interface LUID but with a different
network (192.168.0.0/24) and next hop (10.0.0.1). -/
def rrX : RouteManager.RegisteredRoute :=
  ⟨⟨.v4 3232235520, 24⟩, 3735928559, ⟨.v4 167772161, 0⟩⟩

/-- Fault script: the first create succeeds, the second create fails with
code 99, and the rollback's delete fails with code 77. -/
def os2 : OsState := ⟨[], [.normal, .fault 99, .fault 77], []⟩

/-- A qualifying forwarding-table row: default destination (prefix length
0), gateway 10.0.0.1, physical interface type 6 (ethernet), metric 1. -/
def r0 : WinNet.Row := ⟨0, AF_INET, ⟨AF_INET, 167772161, 0⟩, 6, 1, 1⟩

/-- A winnet environment: every adapter has an empty description and a
connected ip-interface record with metric 10. -/
def env0 : WinNet.Env := ⟨fun _ => some [], fun _ _ => some (1, 10)⟩

/-- An MTU environment: the best default is interface 7, whose MTU is 1500. -/
def envM : Mtu.Env :=
  { get_best_default_route := fun _ => .ok (some ⟨7, ⟨.v4 1, 0⟩⟩)
    get_ip_interface_entry := fun _ _ => .ok 1500 }

/-- Two annotated routes with equal effective metric (for the stable-sort
witness). -/
def annA : WinNet.AnnotatedRoute := ⟨r0, 5⟩

/-- A second annotated route with the same effective metric as `annA` but a
different underlying row. -/
def annB : WinNet.AnnotatedRoute := ⟨⟨0, AF_INET, ⟨AF_INET, 167772162, 0⟩, 7, 2, 1⟩, 5⟩

end Concrete

namespace RouteManager

/-- `registered_route_eq` is propositional equality of the structure. -/
theorem registered_route_eq_true_iff (a b : RegisteredRoute) :
    registered_route_eq a b = true ↔ a = b := by
  cases a with
  | mk an al ah =>
    cases b with
    | mk bn bl bh =>
      simp only [registered_route_eq, Bool.and_eq_true, beq_iff_eq,
        RegisteredRoute.mk.injEq]
      tauto

/-- `registered_route_eq` is reflexive. -/
theorem registered_route_eq_refl (a : RegisteredRoute) :
    registered_route_eq a a = true :=
  (registered_route_eq_true_iff a a).mpr rfl

/-- `registered_route_eq` is false exactly on distinct routes. -/
theorem registered_route_eq_false_iff (a b : RegisteredRoute) :
    registered_route_eq a b = false ↔ a ≠ b := by
  rw [← Bool.not_eq_true, not_iff_not]
  exact registered_route_eq_true_iff a b

/-- `key_match` is propositional equality of the entry keys. -/
theorem key_match_true_iff (e f : ForwardEntry) :
    key_match e f = true ↔ entry_key e = entry_key f := by
  simp [key_match]

/-- `inet_sockaddr_from_socketaddr` is injective. -/
theorem inet_sockaddr_injective (s t : SocketAddr)
    (h : inet_sockaddr_from_socketaddr s = inet_sockaddr_from_socketaddr t) : s = t := by
  cases s with
  | mk sip sp =>
    cases t with
    | mk tip tp =>
      cases sip <;> cases tip <;>
        simp_all [inet_sockaddr_from_socketaddr, AF_INET, AF_INET6]

/-- `rr_key` is injective: distinct registered routes occupy distinct table
slots. -/
theorem rr_key_injective (a b : RegisteredRoute) (h : rr_key a = rr_key b) : a = b := by
  cases a with
  | mk an al ah =>
    cases b with
    | mk bn bl bh =>
      simp only [rr_key, win_ip_address_pfx_port_zero, EntryKey.mk.injEq,
        IpAddressPfx.mk.injEq] at h
      obtain ⟨hl, ⟨hpfx, hplen⟩, hnh⟩ := h
      have hip : an.ip = bn.ip :=
        congrArg SocketAddr.ip (inet_sockaddr_injective ⟨an.ip, 0⟩ ⟨bn.ip, 0⟩ hpfx)
      have hnet : an = bn := by
        cases an; cases bn; simp_all
      have hh : ah = bh := inet_sockaddr_injective ah bh hnh
      simp [hnet, hl, hh]

/-- Key of the row built by `mk_forward_entry`. -/
theorem entry_key_mk_forward_entry (node : InterfaceAndGateway) (network : IpNetwork) :
    entry_key (mk_forward_entry node network) = rr_key ⟨network, node.iface, node.gateway⟩ := rfl

/-- Key of the row built by `mk_delete_row`. -/
theorem entry_key_mk_delete_row (r : RegisteredRoute) :
    entry_key (mk_delete_row r) = rr_key r := rfl

/-- The owned-entry predicate is false on any row whose key belongs to a
registered route distinct from every record of the store. -/
theorem owned_pred_false (records0 : List RouteRecord) (r : RegisteredRoute)
    (e : ForwardEntry) (he : entry_key e = rr_key r)
    (hfresh : ∀ rec ∈ records0, r ≠ rec.registered_route) :
    (records0.any (fun rec => entry_key e == rr_key rec.registered_route)) = false := by
  rw [List.any_eq_false]
  intro rec hrec
  simp only [beq_iff_eq, he]
  intro hk
  exact hfresh rec hrec (rr_key_injective _ _ hk)

/-- `replace_first` leaves `filter q` unchanged when the replaced element and
its replacement both fail `q`. -/
theorem filter_replace_first {α : Type} (q p : α → Bool) (x : α) (l : List α)
    (h : ∀ y ∈ l, p y = true → q y = false) (hx : q x = false) :
    (replace_first p x l).filter q = l.filter q := by
  induction l with
  | nil => rfl
  | cons a l ih =>
    by_cases hp : p a = true
    · have hqa : q a = false := h a (by simp) hp
      simp [replace_first, hp, List.filter_cons, hqa, hx]
    · have hrest := ih (fun y hy => h y (by simp [hy]))
      have hp' : p a = false := by simpa using hp
      simp [replace_first, hp', List.filter_cons, hrest]

/-- `replace_first` preserves `any q` when `q` cannot distinguish replaced
elements from the replacement. -/
theorem any_replace_first {α : Type} (q p : α → Bool) (x : α) (l : List α)
    (h : ∀ y ∈ l, p y = true → q y = q x) :
    (replace_first p x l).any q = l.any q := by
  induction l with
  | nil => rfl
  | cons a l ih =>
    by_cases hp : p a = true
    · have hqa : q a = q x := h a (by simp) hp
      simp [replace_first, hp, hqa]
    · have hrest := ih (fun y hy => h y (by simp [hy]))
      simp [replace_first, hp, hrest]

/-- After `replace_first`, the replacement is present whenever some element
matched, so any predicate true of the replacement holds of the list. -/
theorem any_replace_first_of_any {α : Type} (q p : α → Bool) (x : α) (l : List α)
    (hl : l.any p = true) (hx : q x = true) :
    (replace_first p x l).any q = true := by
  induction l with
  | nil => simp at hl
  | cons a l ih =>
    by_cases hp : p a = true
    · simp [replace_first, hp, hx]
    · simp only [List.any_cons, Bool.or_eq_true] at hl
      rcases hl with hl | hl
      · exact absurd hl hp
      · simp [replace_first, hp, ih hl]

/-- `eraseP` leaves `filter q` unchanged when every `p`-element fails `q`. -/
theorem filter_eraseP {α : Type} (q p : α → Bool) (l : List α)
    (h : ∀ y ∈ l, p y = true → q y = false) :
    (l.eraseP p).filter q = l.filter q := by
  induction l with
  | nil => rfl
  | cons a l ih =>
    by_cases hp : p a = true
    · have hqa : q a = false := h a (by simp) hp
      rw [List.eraseP_cons_of_pos hp, List.filter_cons, hqa]
      simp
    · have hrest := ih (fun y hy => h y (by simp [hy]))
      rw [List.eraseP_cons_of_neg hp, List.filter_cons, List.filter_cons, hrest]

/-- `eraseP` preserves a true `any q` when every `p`-element fails `q`. -/
theorem any_eraseP {α : Type} (q p : α → Bool) (l : List α)
    (h : ∀ y ∈ l, p y = true → q y = false) (hq : l.any q = true) :
    (l.eraseP p).any q = true := by
  induction l with
  | nil => simp at hq
  | cons a l ih =>
    by_cases hp : p a = true
    · have hqa : q a = false := h a (by simp) hp
      rw [List.eraseP_cons_of_pos hp]
      simp only [List.any_cons, Bool.or_eq_true] at hq
      rcases hq with hq | hq
      · rw [hqa] at hq; exact absurd hq (by simp)
      · exact hq
    · rw [List.eraseP_cons_of_neg hp]
      simp only [List.any_cons, Bool.or_eq_true] at hq ⊢
      rcases hq with hq | hq
      · exact Or.inl hq
      · exact Or.inr (ih (fun y hy => h y (by simp [hy])) hq)

/-- `findIdx?` on `l ++ [n]` where nothing in `l` matches and `n` does. -/
theorem findIdx?_append_singleton {α : Type} (p : α → Bool) (l : List α) (n : α)
    (hl : ∀ x ∈ l, p x = false) (hn : p n = true) :
    ∀ i, List.findIdx? p (l ++ [n]) i = some (i + l.length) := by
  induction l with
  | nil => intro i; simp [List.findIdx?_cons, hn]
  | cons a l ih =>
    intro i
    have ha : p a = false := hl a (by simp)
    rw [List.cons_append, List.findIdx?_cons, ha]
    simp only [Bool.false_eq_true, if_false]
    rw [ih (fun x hx => hl x (by simp [hx])) (i + 1)]
    congr 1
    simp [Nat.add_assoc, Nat.add_comm 1]

/-- Erasing the final element of an append. -/
theorem eraseIdx_append_length {α : Type} (l : List α) (n : α) :
    (l ++ [n]).eraseIdx l.length = l := by
  rw [List.eraseIdx_append_of_length_le (Nat.le_refl _)]
  simp

/-- Reading the final element of an append. -/
theorem get?_append_length {α : Type} (l : List α) (n : α) :
    (l ++ [n]).get? l.length = some n := by
  rw [List.get?_eq_getElem?, List.getElem?_append_right (Nat.le_refl _)]
  simp

/-- With an exhausted script, `pop` is nominal. -/
theorem pop_nil (os : OsState) (h : os.script = []) : os.pop = (.normal, os) := by
  cases os with
  | mk t s tr =>
    simp only at h
    subst h
    rfl

/-- Nominal behaviour of the create call. -/
theorem CreateIpForwardEntry2_nominal (e : ForwardEntry) (os : OsState) (h : os.script = []) :
    CreateIpForwardEntry2 e os =
      if os.table.any (key_match e)
      then (ERROR_OBJECT_ALREADY_EXISTS, { os with trace := os.trace ++ [.create e] })
      else (NO_ERROR, { os with
                        table := os.table ++ [e]
                        trace := os.trace ++ [.create e] }) := by
  simp only [CreateIpForwardEntry2, pop_nil os h]

/-- Nominal behaviour of the set call. -/
theorem SetIpForwardEntry2_nominal (e : ForwardEntry) (os : OsState) (h : os.script = []) :
    SetIpForwardEntry2 e os =
      if os.table.any (key_match e)
      then (NO_ERROR, { os with
                        table := replace_first (key_match e) e os.table
                        trace := os.trace ++ [.set e] })
      else (ERROR_NOT_FOUND, { os with trace := os.trace ++ [.set e] }) := by
  simp only [SetIpForwardEntry2, pop_nil os h]

/-- Nominal behaviour of the delete call. -/
theorem DeleteIpForwardEntry2_nominal (e : ForwardEntry) (os : OsState) (h : os.script = []) :
    DeleteIpForwardEntry2 e os =
      if os.table.any (key_match e)
      then (NO_ERROR, { os with
                        table := os.table.eraseP (key_match e)
                        trace := os.trace ++ [.delete e] })
      else (ERROR_NOT_FOUND, { os with trace := os.trace ++ [.delete e] }) := by
  simp only [DeleteIpForwardEntry2, pop_nil os h]

/-- The delete row's key probe, reoriented. -/
theorem key_match_delete_row (r : RegisteredRoute) (f : ForwardEntry) :
    key_match (mk_delete_row r) f = (entry_key f == rr_key r) := by
  rw [Bool.eq_iff_iff]
  simp only [key_match_true_iff, entry_key_mk_delete_row, beq_iff_eq]
  exact eq_comm

/-- The forward row's key probe, reoriented. -/
theorem key_match_forward_entry (node : InterfaceAndGateway) (network : IpNetwork)
    (f : ForwardEntry) :
    key_match (mk_forward_entry node network) f
      = (entry_key f == rr_key ⟨network, node.iface, node.gateway⟩) := by
  rw [Bool.eq_iff_iff]
  simp only [key_match_true_iff, entry_key_mk_forward_entry, beq_iff_eq]
  exact eq_comm

/-- Nominal, key-present behaviour of `delete_from_routing_table`: success,
with the keyed row erased. -/
theorem delete_from_routing_table_present (r : RegisteredRoute) (os : OsState)
    (h : os.script = [])
    (hp : os.table.any (key_match (mk_delete_row r)) = true) :
    delete_from_routing_table r os =
      (.ok (), { os with
                 table := os.table.eraseP (key_match (mk_delete_row r))
                 trace := os.trace ++ [.delete (mk_delete_row r)] }) := by
  simp only [delete_from_routing_table, DeleteIpForwardEntry2_nominal _ _ h, hp, if_true]
  norm_num [NO_ERROR, ERROR_NOT_FOUND]

/-- Rollback of a fresh batch under nominal OS behaviour: processing the
reversed undo log removes exactly the added records and their table rows,
returning success, provided the added registered routes are pairwise
distinct, distinct from every pre-existing record, and present in the
table. -/
theorem undo_go_spec (records0 : List RouteRecord) :
    ∀ (m : List RouteRecord) (os : OsState),
      os.script = [] →
      (∀ n ∈ m, ∀ rec ∈ records0, n.registered_route ≠ rec.registered_route) →
      m.Pairwise (fun a b => a.registered_route ≠ b.registered_route) →
      (∀ n ∈ m, os.table.any (fun f => entry_key f == rr_key n.registered_route) = true) →
      ∃ osF, undo_go (m.map add_event) (.ok ()) (records0 ++ m.reverse) os
           = some (.ok (), records0, osF)
        ∧ osF.script = []
        ∧ owned_entries records0 osF.table = owned_entries records0 os.table := by
  intro m
  induction m with
  | nil =>
    intro os hs _ _ _
    exact ⟨os, by simp [undo_go], hs, rfl⟩
  | cons n m ih =>
    intro os hs hfresh hpw htab
    have hpw_head : ∀ b ∈ m, n.registered_route ≠ b.registered_route :=
      (List.pairwise_cons.mp hpw).1
    have hpw_tail := (List.pairwise_cons.mp hpw).2
    have hfresh_head := hfresh n (by simp)
    -- the find step hits the trailing record
    have hfind : find_route_record (records0 ++ ((n :: m).reverse)) n.registered_route
        = some (records0 ++ m.reverse).length := by
      rw [List.reverse_cons, ← List.append_assoc]
      unfold find_route_record
      rw [findIdx?_append_singleton _ _ _ ?hl ?hn 0]
      · simp
      case hl =>
        intro x hx
        rw [registered_route_eq_false_iff]
        rcases List.mem_append.mp hx with hx | hx
        · exact fun hc => hfresh n (by simp) x hx hc
        · exact fun hc => hpw_head x (List.mem_reverse.mp hx) hc
      case hn => exact registered_route_eq_refl _
    have hget : (records0 ++ ((n :: m).reverse)).get? (records0 ++ m.reverse).length
        = some n := by
      rw [List.reverse_cons, ← List.append_assoc]
      exact get?_append_length _ n
    have htab_n : os.table.any (key_match (mk_delete_row n.registered_route)) = true := by
      have hfn : key_match (mk_delete_row n.registered_route)
          = (fun f => entry_key f == rr_key n.registered_route) :=
        funext (fun f => key_match_delete_row _ f)
      rw [hfn]
      exact htab n (by simp)
    have hdel := delete_from_routing_table_present n.registered_route os hs htab_n
    have herase : (records0 ++ ((n :: m).reverse)).eraseIdx (records0 ++ m.reverse).length
        = records0 ++ m.reverse := by
      rw [List.reverse_cons, ← List.append_assoc]
      exact eraseIdx_append_length _ n
    -- state after the delete step
    set os1 : OsState :=
      { os with
        table := os.table.eraseP (key_match (mk_delete_row n.registered_route))
        trace := os.trace ++ [.delete (mk_delete_row n.registered_route)] } with hos1
    have hkey_to_false : ∀ y ∈ os.table,
        key_match (mk_delete_row n.registered_route) y = true →
        ∀ x ∈ m, (entry_key y == rr_key x.registered_route) = false := by
      intro y _ hy x hx
      rw [key_match_delete_row] at hy
      simp only [beq_iff_eq] at hy
      rw [hy, beq_eq_false_iff_ne]
      exact fun hc => hpw_head x hx (rr_key_injective _ _ hc)
    have ihts : ∀ x ∈ m, os1.table.any (fun f => entry_key f == rr_key x.registered_route) = true := by
      intro x hx
      exact any_eraseP _ _ _ (fun y hy hpy => hkey_to_false y hy hpy x hx) (htab x (by simp [hx]))
    obtain ⟨osF, hrec, hscr, howned⟩ :=
      ih os1 (by simp [hos1, hs]) (fun x hx => hfresh x (by simp [hx])) hpw_tail ihts
    refine ⟨osF, ?_, hscr, ?_⟩
    · -- unfold one step of undo_go
      simp only [List.map_cons, undo_go, add_event, hfind, hget, hdel, herase]
      exact hrec
    · rw [howned]
      show owned_entries records0 os1.table = owned_entries records0 os.table
      unfold owned_entries
      exact filter_eraseP _ _ _ (fun y _ hpy => by
        rw [key_match_delete_row] at hpy
        simp only [beq_iff_eq] at hpy
        exact owned_pred_false records0 n.registered_route y hpy hfresh_head)

/-- One successful add step under nominal OS behaviour: resolution succeeded
and the registered route is fresh with respect to the baseline store.  The
write succeeds (either by create, or by create-reports-exists followed by
set), the key becomes present, other keys stay present, and owned entries
are untouched. -/
theorem add_into_step (env : Env) (records0 : List RouteRecord) (g : Route)
    (node : InterfaceAndGateway) (os : OsState)
    (hres : resolve_node env (ipnetwork_to_address_family g.network) g.node = some (.ok node))
    (hs : os.script = [])
    (hfresh_g : ∀ rec ∈ records0,
      (⟨g.network, node.iface, node.gateway⟩ : RegisteredRoute) ≠ rec.registered_route) :
    ∃ os1, add_into_routing_table env g os
        = some (.ok ⟨g.network, node.iface, node.gateway⟩, os1)
      ∧ os1.script = []
      ∧ owned_entries records0 os1.table = owned_entries records0 os.table
      ∧ os1.table.any
          (fun f => entry_key f == rr_key ⟨g.network, node.iface, node.gateway⟩) = true
      ∧ ∀ r' : RegisteredRoute, r' ≠ ⟨g.network, node.iface, node.gateway⟩ →
          os.table.any (fun f => entry_key f == rr_key r') = true →
          os1.table.any (fun f => entry_key f == rr_key r') = true := by
  set E := mk_forward_entry node g.network with hE
  set rr : RegisteredRoute := ⟨g.network, node.iface, node.gateway⟩ with hrr
  have hkeyE : entry_key E = rr_key rr := entry_key_mk_forward_entry node g.network
  have hp_to_key : ∀ y : ForwardEntry, key_match E y = true → entry_key y = rr_key rr := by
    intro y hy
    rw [key_match_true_iff] at hy
    rw [← hy, hkeyE]
  by_cases hta : os.table.any (key_match E) = true
  · -- create reports already-exists; set overwrites in place
    refine ⟨{ os with
              table := replace_first (key_match E) E os.table
              trace := os.trace ++ [.create E] ++ [.set E] }, ?_, by simp [hs], ?_, ?_, ?_⟩
    · simp only [add_into_routing_table, hres, ← hE,
        CreateIpForwardEntry2_nominal _ _ hs, hta, if_true]
      have hs1 : ({ os with trace := os.trace ++ [.create E] } : OsState).script = [] := by
        simp [hs]
      simp only [SetIpForwardEntry2_nominal _ _ hs1]
      simp [hta, ERROR_OBJECT_ALREADY_EXISTS, NO_ERROR]
    · exact filter_replace_first _ _ _ _
        (fun y _ hpy => owned_pred_false records0 rr y (hp_to_key y hpy) hfresh_g)
        (owned_pred_false records0 rr E hkeyE hfresh_g)
    · exact any_replace_first_of_any _ _ _ _ hta (by simp [hkeyE])
    · intro r' hne hany
      rw [any_replace_first _ _ _ _ (fun y _ hpy => by rw [hp_to_key y hpy, hkeyE])]
      exact hany
  · -- plain create inserts the row
    have hta' : os.table.any (key_match E) = false := by simpa using hta
    refine ⟨{ os with
              table := os.table ++ [E]
              trace := os.trace ++ [.create E] }, ?_, by simp [hs], ?_, ?_, ?_⟩
    · simp only [add_into_routing_table, hres, ← hE,
        CreateIpForwardEntry2_nominal _ _ hs, hta', Bool.false_eq_true, if_false]
      simp [ERROR_OBJECT_ALREADY_EXISTS, NO_ERROR]
    · unfold owned_entries
      rw [List.filter_append]
      have : List.filter (fun f =>
          records0.any (fun rec => entry_key f == rr_key rec.registered_route)) [E] = [] := by
        simp [List.filter_cons, owned_pred_false records0 rr E hkeyE hfresh_g]
      rw [this, List.append_nil]
    · rw [List.any_append]
      simp [hkeyE]
    · intro r' _ hany
      rw [List.any_append, hany]
      simp

/-- Fresh transactional batch under nominal OS behaviour: when the specs
before the failing one all resolve, their registered routes are pairwise
distinct and absent from the baseline store, and the failing spec's
resolution produces error `e`, then `add_routes_go` rolls everything back:
it returns exactly `e`, restores the store to the baseline, and leaves the
owned table rows untouched. -/
theorem add_go_spec (env : Env) (records0 : List RouteRecord) (bad : Route)
    (rest : List Route) (e : Error)
    (hbad : resolve_node env (ipnetwork_to_address_family bad.network) bad.node
      = some (.error e)) :
    ∀ (good : List Route) (news : List RouteRecord) (os : OsState),
      os.script = [] →
      (∀ r ∈ good, (resolved_rr env r).isSome) →
      (news.map (fun n => n.registered_route)
        ++ good.filterMap (resolved_rr env)).Pairwise (fun a b => a ≠ b) →
      (∀ rr ∈ news.map (fun n => n.registered_route) ++ good.filterMap (resolved_rr env),
        ∀ rec ∈ records0, rr ≠ rec.registered_route) →
      (∀ n ∈ news, os.table.any (fun f => entry_key f == rr_key n.registered_route) = true) →
      ∃ osF, add_routes_go env (good ++ bad :: rest) (news.map add_event) (records0 ++ news) os
           = some (.error e, records0, osF)
        ∧ osF.script = []
        ∧ owned_entries records0 osF.table = owned_entries records0 os.table := by
  intro good
  induction good with
  | nil =>
    intro news os hs _ hpw hfr htab
    rw [List.filterMap_nil, List.append_nil] at hpw hfr
    have hpw_news : news.Pairwise (fun a b => a.registered_route ≠ b.registered_route) :=
      List.pairwise_map.mp hpw
    have hfr' : ∀ n ∈ news.reverse, ∀ rec ∈ records0,
        n.registered_route ≠ rec.registered_route := by
      intro n hn rec hrec
      exact hfr n.registered_route
        (List.mem_map.mpr ⟨n, List.mem_reverse.mp hn, rfl⟩) rec hrec
    have hpw' : news.reverse.Pairwise
        (fun a b => a.registered_route ≠ b.registered_route) :=
      List.pairwise_reverse.mpr (hpw_news.imp (fun h => Ne.symm h))
    have htab' : ∀ n ∈ news.reverse,
        os.table.any (fun f => entry_key f == rr_key n.registered_route) = true :=
      fun n hn => htab n (List.mem_reverse.mp hn)
    obtain ⟨osF, hu, hscr, howned⟩ := undo_go_spec records0 news.reverse os hs hfr' hpw' htab'
    rw [List.reverse_reverse] at hu
    refine ⟨osF, ?_, hscr, howned⟩
    have hstep : add_into_routing_table env bad os = some (.error e, os) := by
      simp [add_into_routing_table, hbad]
    have hundo : undo_events (news.map add_event) (records0 ++ news) os
        = some (.ok (), records0, osF) := by
      unfold undo_events
      rw [← List.map_reverse]
      exact hu
    simp only [List.nil_append, add_routes_go, hstep, hundo]
  | cons g gs ih =>
    intro news os hs hgood hpw hfr htab
    -- extract the resolution of the head spec
    have hg := hgood g (by simp)
    rcases hr : resolve_node env (ipnetwork_to_address_family g.network) g.node with _ | er
    · rw [resolved_rr, hr] at hg; simp at hg
    rcases er with e' | node
    · rw [resolved_rr, hr] at hg; simp at hg
    have hrrg : resolved_rr env g = some ⟨g.network, node.iface, node.gateway⟩ := by
      rw [resolved_rr, hr]
    set rr : RegisteredRoute := ⟨g.network, node.iface, node.gateway⟩ with hrrdef
    have hflt : (g :: gs).filterMap (resolved_rr env) = rr :: gs.filterMap (resolved_rr env) := by
      rw [List.filterMap_cons, hrrg]
    rw [hflt] at hpw hfr
    have hrr_mem : rr ∈ news.map (fun n => n.registered_route)
        ++ rr :: gs.filterMap (resolved_rr env) := by
      simp
    have hfresh_g : ∀ rec ∈ records0, rr ≠ rec.registered_route :=
      fun rec hrec => hfr rr hrr_mem rec hrec
    obtain ⟨os1, hstep, hs1, howned1, hself, hothers⟩ :=
      add_into_step env records0 g node os hr hs hfresh_g
    -- the new registered route is absent from the current store
    have hpw_parts := List.pairwise_append.mp hpw
    have hfind : find_route_record (records0 ++ news) rr = none := by
      unfold find_route_record
      rw [List.findIdx?_eq_none_iff]
      intro x hx
      rw [registered_route_eq_false_iff]
      rcases List.mem_append.mp hx with hx | hx
      · exact hfr rr hrr_mem x hx
      · intro hc
        exact hpw_parts.2.2 x.registered_route
          (List.mem_map.mpr ⟨x, hx, rfl⟩) rr (by simp) (hc.symm ▸ rfl)
    set new_record : RouteRecord := ⟨g, rr⟩ with hnr
    -- invoke the induction hypothesis with the grown news list
    have hlist_eq : news.map (fun n => n.registered_route) ++ rr :: gs.filterMap (resolved_rr env)
        = (news ++ [new_record]).map (fun n => n.registered_route)
          ++ gs.filterMap (resolved_rr env) := by
      rw [List.map_append]
      simp [List.append_assoc]
    obtain ⟨osF, hrec, hscr, howned2⟩ :=
      ih (news ++ [new_record]) os1 hs1 (fun r hmem => hgood r (by simp [hmem]))
        (by rw [← hlist_eq]; exact hpw)
        (by rw [← hlist_eq]; exact hfr)
        (by
          intro n hn
          rcases List.mem_append.mp hn with hn | hn
          · -- old news keys survive the write
            have hne : n.registered_route ≠ rr := by
              intro hc
              have := hpw_parts.2.2 n.registered_route
                (List.mem_map.mpr ⟨n, hn, rfl⟩) rr (by simp)
              exact this hc
            exact hothers n.registered_route hne (htab n hn)
          · -- the new record's key was just written
            have : n = new_record := by simpa using hn
            rw [this]
            exact hself)
    refine ⟨osF, ?_, hscr, by rw [howned2, howned1]⟩
    -- unfold the head step of the loop
    show add_routes_go env ((g :: gs) ++ bad :: rest) (news.map add_event)
      (records0 ++ news) os = some (.error e, records0, osF)
    rw [List.cons_append]
    simp only [add_routes_go, hstep, hfind]
    rw [show (records0 ++ news) ++ [new_record] = records0 ++ (news ++ [new_record]) from
      (List.append_assoc records0 news [new_record])]
    rw [show news.map add_event ++ [add_event new_record]
        = (news ++ [new_record]).map add_event from (List.map_append add_event news [new_record]).symm]
    exact hrec

end RouteManager

/-- C1 (amended): if an `add_routes` batch fails on a later spec while the OS
calls behave nominally (empty fault script), every earlier spec resolved,
the earlier specs' registered routes are pairwise distinct and none of them
equals a registered route already in the store (no replace-in-place), then
after the error returns the store equals its pre-apply state and the
manager-owned forwarding-table rows are unchanged. -/
theorem apply_failure_rolls_back_store_and_owned_table
    (env : RouteManager.Env) (good : List RouteManager.Route) (bad : RouteManager.Route)
    (rest : List RouteManager.Route) (records0 : List RouteManager.RouteRecord)
    (os : RouteManager.OsState) (e : RouteManager.Error)
    (hs : os.script = [])
    (hgood : ∀ r ∈ good, (RouteManager.resolved_rr env r).isSome)
    (hbad : RouteManager.resolve_node env
      (RouteManager.ipnetwork_to_address_family bad.network) bad.node = some (.error e))
    (hpw : (good.filterMap (RouteManager.resolved_rr env)).Pairwise (fun a b => a ≠ b))
    (hfr : ∀ rr ∈ good.filterMap (RouteManager.resolved_rr env),
      ∀ rec ∈ records0, rr ≠ rec.registered_route) :
    ∃ osF, RouteManager.add_routes env (good ++ bad :: rest) records0 os
        = some (.error e, records0, osF)
      ∧ RouteManager.owned_entries records0 osF.table
        = RouteManager.owned_entries records0 os.table := by
  obtain ⟨osF, h1, _, h3⟩ := RouteManager.add_go_spec env records0 bad rest e hbad good [] os hs
    hgood (by simpa using hpw) (by simpa using hfr) (by simp)
  exact ⟨osF, by simpa using h1, h3⟩

/-- C1 witness: concrete instance of the rollback theorem (one good spec by
string-encoded LUID, then a spec that fails with `NoDefaultRoute`). -/
theorem apply_failure_rolls_back_witness :
    Concrete.osEmpty.script = []
    ∧ ∃ osF, RouteManager.add_routes Concrete.envW [Concrete.grW, Concrete.brW] []
          Concrete.osEmpty = some (.error .NoDefaultRoute, [], osF)
        ∧ RouteManager.owned_entries [] osF.table
          = RouteManager.owned_entries [] Concrete.osEmpty.table :=
  ⟨rfl, apply_failure_rolls_back_store_and_owned_table Concrete.envW [Concrete.grW]
    Concrete.brW [] [] Concrete.osEmpty .NoDefaultRoute rfl (by decide) (by decide)
    (by decide) (by decide)⟩

/-- C1 counterexample: with a store record whose registered route equals the
one the first spec resolves to, the replace-in-place path makes rollback
delete the pre-existing record and its table row, so the store (`[recA]`
before, `[]` after) and the owned table row are not restored. -/
theorem apply_failure_rollback_not_restoring :
    (RouteManager.add_routes Concrete.envW [Concrete.grW, Concrete.brW] [Concrete.recA]
        Concrete.osA).map (fun out => (out.1, out.2.1, out.2.2.table))
      = some (.error .NoDefaultRoute, [], [])
    ∧ ([Concrete.recA] : List RouteManager.RouteRecord) ≠ []
    ∧ Concrete.osA.table ≠ [] :=
  ⟨by decide, by decide, by decide⟩

/-- C2 (amended): under the same nominal-OS and freshness conditions, the
error returned by a failing `add_routes` is the failing spec's original
resolution error.  (In general the source's `map_err` closure shadows the
original error: when a rollback step fails, the rollback's error is returned
instead, and an undo-log entry referencing an absent record panics.) -/
theorem apply_failure_returns_original_error
    (env : RouteManager.Env) (good : List RouteManager.Route) (bad : RouteManager.Route)
    (rest : List RouteManager.Route) (records0 : List RouteManager.RouteRecord)
    (os : RouteManager.OsState) (e : RouteManager.Error)
    (hs : os.script = [])
    (hgood : ∀ r ∈ good, (RouteManager.resolved_rr env r).isSome)
    (hbad : RouteManager.resolve_node env
      (RouteManager.ipnetwork_to_address_family bad.network) bad.node = some (.error e))
    (hpw : (good.filterMap (RouteManager.resolved_rr env)).Pairwise (fun a b => a ≠ b))
    (hfr : ∀ rr ∈ good.filterMap (RouteManager.resolved_rr env),
      ∀ rec ∈ records0, rr ≠ rec.registered_route) :
    ∃ recordsF osF, RouteManager.add_routes env (good ++ bad :: rest) records0 os
        = some (.error e, recordsF, osF) := by
  obtain ⟨osF, h1, _, _⟩ := RouteManager.add_go_spec env records0 bad rest e hbad good [] os hs
    hgood (by simpa using hpw) (by simpa using hfr) (by simp)
  exact ⟨records0, osF, by simpa using h1⟩

/-- C2 witness: concrete instance of the original-error theorem. -/
theorem apply_failure_returns_original_error_witness :
    Concrete.osEmpty.script = []
    ∧ ∃ recordsF osF, RouteManager.add_routes Concrete.envW [Concrete.grW, Concrete.brW] []
        Concrete.osEmpty = some (.error .NoDefaultRoute, recordsF, osF) :=
  ⟨rfl, apply_failure_returns_original_error Concrete.envW [Concrete.grW] Concrete.brW [] []
    Concrete.osEmpty .NoDefaultRoute rfl (by decide) (by decide) (by decide) (by decide)⟩

/-- C2 counterexample: the first spec's write succeeds, the second spec's
create fails with OS code 99 (original error `AddToRouteTable 99`), and the
rollback's delete fails with OS code 77; the caller then receives
`DeleteFromRouteTable 77`, i.e. the rollback failure masks and replaces the
original error. -/
theorem apply_rollback_failure_masks_error :
    (RouteManager.add_routes Concrete.envW [Concrete.grW, Concrete.grX] [] Concrete.os2).map
        (fun out => out.1) = some (.error (.DeleteFromRouteTable 77))
    ∧ (RouteManager.add_into_routing_table Concrete.envW Concrete.grX
          ⟨[Concrete.entryA], [.fault 99, .fault 77], [.create Concrete.entryA]⟩).map
        (fun out => out.1) = some (.error (.AddToRouteTable 99))
    ∧ RouteManager.Error.DeleteFromRouteTable 77 ≠ RouteManager.Error.AddToRouteTable 99 :=
  ⟨by decide, by decide, by decide⟩

/-- C10 (code evaluation): `get_table_entry`'s guard is inverted — for the
in-range index 0 of a one-row snapshot it returns `None`, so the
`unwrap` in `get_best_default_internal`'s loop panics on any non-empty
snapshot. -/
theorem get_table_entry_in_range_returns_none :
    WinNet.get_table_entry [Concrete.r0] 0 = none
    ∧ 0 < WinNet.num_entries [Concrete.r0] :=
  ⟨by decide, by decide⟩

/-- C3 (code evaluation): a snapshot with a single row that passes every
filter of the default-route selector (prefix length 0, gateway present,
physical connected interface, so it survives annotation) makes
`get_best_default_internal` panic (`none`) instead of returning that row's
interface and next hop. -/
theorem get_best_default_internal_panics_on_qualifying_row :
    WinNet.get_best_default_internal Concrete.env0 [Concrete.r0] = none
    ∧ Concrete.r0.DestPfxLen = 0
    ∧ WinNet.route_has_gateway Concrete.r0 = true
    ∧ WinNet.is_route_on_physical_interface Concrete.env0 Concrete.r0 = .ok true
    ∧ WinNet.annotated_routes Concrete.env0 [Concrete.r0] ≠ [] :=
  ⟨by decide, by decide, by decide, by decide, by decide⟩

/-- The pair of elements at two (ordered) positions is a sublist. -/
theorem pair_get_sublist {α : Type} (l : List α) (i j : Nat) (hi : i < l.length)
    (hj : j < l.length) (hij : i < j) :
    [l.get ⟨i, hi⟩, l.get ⟨j, hj⟩].Sublist l := by
  obtain ⟨k, rfl⟩ : ∃ k, j = (i + 1) + k := ⟨j - (i + 1), by omega⟩
  have hk : k < (l.drop (i + 1)).length := by
    rw [List.length_drop]
    omega
  have hmem : l.get ⟨(i + 1) + k, hj⟩ ∈ l.drop (i + 1) := by
    have h0 := List.get_mem (l.drop (i + 1)) k hk
    have hval : (l.drop (i + 1)).get ⟨k, hk⟩ = l.get ⟨(i + 1) + k, hj⟩ := by
      simp [List.get_eq_getElem, List.getElem_drop]
    rwa [hval] at h0
  have h1 : ([l.get ⟨i, hi⟩, l.get ⟨(i + 1) + k, hj⟩] : List α).Sublist
      (l.get ⟨i, hi⟩ :: l.drop (i + 1)) :=
    List.Sublist.cons₂ _ (List.singleton_sublist.mpr hmem)
  have h2 : l.get ⟨i, hi⟩ :: l.drop (i + 1) = l.drop i := by
    simp [List.get_eq_getElem, List.getElem_cons_drop l i hi]
  rw [h2] at h1
  exact h1.trans (List.drop_sublist i l)

/-- C4: the annotated-route sort is stable by effective metric — for any two
positions with equal effective metric, the earlier snapshot-ordered row
precedes the later one in the sorted output. -/
theorem sort_annotated_stable (l : List WinNet.AnnotatedRoute) (i j : Nat)
    (hi : i < l.length) (hj : j < l.length) (hij : i < j)
    (hm : (l.get ⟨i, hi⟩).effective_metric = (l.get ⟨j, hj⟩).effective_metric) :
    [l.get ⟨i, hi⟩, l.get ⟨j, hj⟩].Sublist (WinNet.sort_annotated l) := by
  apply List.sublist_mergeSort
  · intro a b c hab hbc
    simp only [WinNet.le_metric, decide_eq_true_eq] at hab hbc ⊢
    omega
  · intro a b
    simp only [WinNet.le_metric, Bool.or_eq_true, decide_eq_true_eq]
    omega
  · refine List.pairwise_cons.mpr ⟨?_, List.pairwise_singleton _ _⟩
    intro b hb
    rw [List.mem_singleton] at hb
    subst hb
    simp only [WinNet.le_metric, decide_eq_true_eq]
    exact le_of_eq hm
  · exact pair_get_sublist l i j hi hj hij

/-- C4 witness: two equal-metric annotated routes keep their input order. -/
theorem sort_annotated_stable_witness :
    [Concrete.annA, Concrete.annB].Sublist
      (WinNet.sort_annotated [Concrete.annA, Concrete.annB]) :=
  sort_annotated_stable [Concrete.annA, Concrete.annB] 0 1 (by decide) (by decide)
    (by decide) (by decide)

/-- C5 (amended): the `routing/windows` `RegisteredRoute` equality holds iff
all three fields (network, luid, next hop) are equal, and that module's
`find_route_record` reports `none` exactly when no store record agrees with
the probe on all three fields; the duplicated `winnet_rs` implementation
instead compares only the luid value, so there equality holds iff the luids
agree (regardless of prefix and next hop) and its `find_route_record`
reports `none` exactly when no record shares the probe's luid. -/
theorem registered_route_equality (a : RouteManager.RegisteredRoute) :
    (∀ b, RouteManager.registered_route_eq a b = true
      ↔ a.network = b.network ∧ a.luid = b.luid ∧ a.next_hop = b.next_hop)
    ∧ (∀ records : List RouteManager.RouteRecord,
        RouteManager.find_route_record records a = none
        ↔ ∀ rec ∈ records, ¬(a.network = rec.registered_route.network
            ∧ a.luid = rec.registered_route.luid
            ∧ a.next_hop = rec.registered_route.next_hop))
    ∧ (∀ b, WinNetRm.registered_route_eq a b = true ↔ a.luid = b.luid)
    ∧ ∀ records : List RouteManager.RouteRecord,
        WinNetRm.find_route_record records a = none
        ↔ ∀ rec ∈ records, a.luid ≠ rec.registered_route.luid := by
  have hfields : ∀ b, RouteManager.registered_route_eq a b = true
      ↔ a.network = b.network ∧ a.luid = b.luid ∧ a.next_hop = b.next_hop := by
    intro b
    rw [RouteManager.registered_route_eq_true_iff]
    cases a
    cases b
    simp only [RouteManager.RegisteredRoute.mk.injEq]
  have hluid : ∀ b, WinNetRm.registered_route_eq a b = true ↔ a.luid = b.luid := by
    intro b
    simp [WinNetRm.registered_route_eq]
  refine ⟨hfields, ?_, hluid, ?_⟩
  · intro records
    unfold RouteManager.find_route_record
    rw [List.findIdx?_eq_none_iff]
    constructor
    · intro h rec hrec hc
      have hfalse := h rec hrec
      rw [(hfields rec.registered_route).mpr hc] at hfalse
      simp at hfalse
    · intro h rec hrec
      rw [Bool.eq_false_iff]
      intro ht
      exact h rec hrec ((hfields rec.registered_route).mp ht)
  · intro records
    unfold WinNetRm.find_route_record
    rw [List.findIdx?_eq_none_iff]
    constructor
    · intro h rec hrec hc
      have hfalse := h rec hrec
      rw [(hluid rec.registered_route).mpr hc] at hfalse
      simp at hfalse
    · intro h rec hrec
      rw [Bool.eq_false_iff]
      intro ht
      exact h rec hrec ((hluid rec.registered_route).mp ht)

/-- C5 counterexample: under the `winnet_rs` `PartialEq` (which the claim
also covers), two registered routes sharing an interface LUID but differing
in both network and next hop compare equal, and that module's
`find_route_record` returns the position of the record with the differing
fields — so equality there does not require all three fields to agree and
`find_route_record` does not distinguish such routes. -/
theorem winnet_registered_route_eq_ignores_fields :
    WinNetRm.registered_route_eq Concrete.rrW Concrete.rrX = true
    ∧ Concrete.rrW.network ≠ Concrete.rrX.network
    ∧ Concrete.rrW.next_hop ≠ Concrete.rrX.next_hop
    ∧ WinNetRm.find_route_record [⟨Concrete.grW, Concrete.rrX⟩] Concrete.rrW = some 0 :=
  ⟨by decide, by decide, by decide, by decide⟩

/-- C5 witness: concrete instances of the field-wise equality law of the
`routing/windows` implementation and the luid-only law of the `winnet_rs`
implementation. -/
theorem registered_route_equality_witness :
    (RouteManager.registered_route_eq Concrete.rrW Concrete.rrW = true
      ↔ Concrete.rrW.network = Concrete.rrW.network
        ∧ Concrete.rrW.luid = Concrete.rrW.luid
        ∧ Concrete.rrW.next_hop = Concrete.rrW.next_hop)
    ∧ (WinNetRm.registered_route_eq Concrete.rrW Concrete.rrX = true
      ↔ Concrete.rrW.luid = Concrete.rrX.luid) :=
  ⟨(registered_route_equality Concrete.rrW).1 Concrete.rrW,
    (registered_route_equality Concrete.rrW).2.2.1 Concrete.rrX⟩

/-- C6: once resolution has produced a node, `add_into_routing_table` builds
the entry with metric 0, protocol `MIB_IPPROTO_NETMGMT` and origin
`NlroManual`, creates it, overwrites via set exactly when create reports
"already exists", succeeds (returning the registered route built from the
resolved node) iff the create — or the fallback set — returns success, and
turns any other status into `AddToRouteTable` carrying that OS code. -/
theorem add_into_routing_table_create_set (env : RouteManager.Env)
    (route : RouteManager.Route) (os : RouteManager.OsState)
    (node : RouteManager.InterfaceAndGateway)
    (h : RouteManager.resolve_node env
      (RouteManager.ipnetwork_to_address_family route.network) route.node = some (.ok node)) :
    (RouteManager.mk_forward_entry node route.network).Metric = 0
    ∧ (RouteManager.mk_forward_entry node route.network).Protocol
      = RouteManager.MIB_IPPROTO_NETMGMT
    ∧ (RouteManager.mk_forward_entry node route.network).Origin = RouteManager.NlroManual
    ∧ (∀ os1, RouteManager.CreateIpForwardEntry2
          (RouteManager.mk_forward_entry node route.network) os
          = (RouteManager.ERROR_OBJECT_ALREADY_EXISTS, os1) →
        ∀ s2 os2, RouteManager.SetIpForwardEntry2
            (RouteManager.mk_forward_entry node route.network) os1 = (s2, os2) →
          RouteManager.add_into_routing_table env route os
            = some ((if s2 = RouteManager.NO_ERROR
                then Except.ok ⟨route.network, node.iface, node.gateway⟩
                else Except.error (.AddToRouteTable s2)), os2))
    ∧ ∀ s1 os1, RouteManager.CreateIpForwardEntry2
          (RouteManager.mk_forward_entry node route.network) os = (s1, os1) →
        s1 ≠ RouteManager.ERROR_OBJECT_ALREADY_EXISTS →
        RouteManager.add_into_routing_table env route os
          = some ((if s1 = RouteManager.NO_ERROR
              then Except.ok ⟨route.network, node.iface, node.gateway⟩
              else Except.error (.AddToRouteTable s1)), os1) := by
  refine ⟨rfl, rfl, rfl, ?_, ?_⟩
  · intro os1 hc s2 os2 hset
    simp only [RouteManager.add_into_routing_table, h, hc, hset, beq_self_eq_true, if_true]
    by_cases h2 : s2 = RouteManager.NO_ERROR
    · simp [h2]
    · simp [h2, Ne.symm h2]
  · intro s1 os1 hc hne
    have hb : (RouteManager.ERROR_OBJECT_ALREADY_EXISTS == s1) = false :=
      beq_eq_false_iff_ne.mpr (Ne.symm hne)
    simp only [RouteManager.add_into_routing_table, h, hc, hb, Bool.false_eq_true, if_false]
    by_cases h1 : s1 = RouteManager.NO_ERROR
    · simp [h1]
    · simp [h1, Ne.symm h1]

/-- C6 witness: with an empty table the create succeeds directly and the
registered route is built from the resolved node. -/
theorem add_into_routing_table_create_set_witness :
    RouteManager.resolve_node Concrete.envW
        (RouteManager.ipnetwork_to_address_family Concrete.grW.network) Concrete.grW.node
      = some (.ok ⟨3735928559, ⟨.v4 0, 0⟩⟩)
    ∧ RouteManager.add_into_routing_table Concrete.envW Concrete.grW Concrete.osEmpty
      = some (.ok Concrete.rrW, ⟨[Concrete.entryA], [], [.create Concrete.entryA]⟩) := by
  refine ⟨by decide, ?_⟩
  have h := (add_into_routing_table_create_set Concrete.envW Concrete.grW Concrete.osEmpty
    ⟨3735928559, ⟨.v4 0, 0⟩⟩ (by decide)).2.2.2.2
  have hc : RouteManager.CreateIpForwardEntry2
      (RouteManager.mk_forward_entry ⟨3735928559, ⟨.v4 0, 0⟩⟩ Concrete.grW.network)
      Concrete.osEmpty
      = (0, ⟨[Concrete.entryA], [], [.create Concrete.entryA]⟩) := by decide
  have hres := h 0 ⟨[Concrete.entryA], [], [.create Concrete.entryA]⟩ hc (by decide)
  simpa [RouteManager.NO_ERROR] using hres

/-- C7: the delete operation demotes an OS "not found" status to success,
treats OS success as success, and maps every other status to
`DeleteFromRouteTable` carrying that OS code. -/
theorem delete_from_routing_table_status_policy (route : RouteManager.RegisteredRoute)
    (os : RouteManager.OsState) :
    ∀ s os1, RouteManager.DeleteIpForwardEntry2 (RouteManager.mk_delete_row route) os
        = (s, os1) →
      (s = RouteManager.ERROR_NOT_FOUND →
        RouteManager.delete_from_routing_table route os = (.ok (), os1))
      ∧ (s = RouteManager.NO_ERROR →
        RouteManager.delete_from_routing_table route os = (.ok (), os1))
      ∧ (s ≠ RouteManager.ERROR_NOT_FOUND → s ≠ RouteManager.NO_ERROR →
        RouteManager.delete_from_routing_table route os
          = (.error (.DeleteFromRouteTable s), os1)) := by
  intro s os1 hd
  refine ⟨?_, ?_, ?_⟩
  · intro h1
    simp [RouteManager.delete_from_routing_table, hd, h1]
  · intro h1
    simp [RouteManager.delete_from_routing_table, hd, h1,
      RouteManager.NO_ERROR, RouteManager.ERROR_NOT_FOUND]
  · intro h1 h2
    have hb1 : (s == RouteManager.ERROR_NOT_FOUND) = false := beq_eq_false_iff_ne.mpr h1
    have hb2 : (s == RouteManager.NO_ERROR) = false := beq_eq_false_iff_ne.mpr h2
    simp [RouteManager.delete_from_routing_table, hd, hb1, hb2]

/-- C7 witness: deleting a route absent from the table yields success (the
"not found" demotion). -/
theorem delete_from_routing_table_status_policy_witness :
    RouteManager.DeleteIpForwardEntry2 (RouteManager.mk_delete_row Concrete.rrW)
        Concrete.osEmpty
      = (RouteManager.ERROR_NOT_FOUND,
          ⟨[], [], [.delete (RouteManager.mk_delete_row Concrete.rrW)]⟩)
    ∧ RouteManager.delete_from_routing_table Concrete.rrW Concrete.osEmpty
      = (.ok (), ⟨[], [], [.delete (RouteManager.mk_delete_row Concrete.rrW)]⟩) := by
  refine ⟨by decide, ?_⟩
  exact (delete_from_routing_table_status_policy Concrete.rrW Concrete.osEmpty
    RouteManager.ERROR_NOT_FOUND
    ⟨[], [], [.delete (RouteManager.mk_delete_row Concrete.rrW)]⟩ (by decide)).1 rfl

/-- The OS state after `delete_from_routing_table` is the state after the
delete call, whatever the status. -/
theorem delete_from_routing_table_snd (r : RouteManager.RegisteredRoute)
    (os : RouteManager.OsState) :
    (RouteManager.delete_from_routing_table r os).2
      = (RouteManager.DeleteIpForwardEntry2 (RouteManager.mk_delete_row r) os).2 := by
  unfold RouteManager.delete_from_routing_table
  rcases hd : RouteManager.DeleteIpForwardEntry2 (RouteManager.mk_delete_row r) os with ⟨s, os1⟩
  simp only
  split
  · rfl
  · split <;> rfl

/-- Every delete call appends exactly its own trace entry. -/
theorem DeleteIpForwardEntry2_trace (e : RouteManager.ForwardEntry)
    (os : RouteManager.OsState) :
    (RouteManager.DeleteIpForwardEntry2 e os).2.trace
      = os.trace ++ [RouteManager.OsCall.delete e] := by
  rcases os with ⟨t, s, tr⟩
  cases s with
  | nil => simp only [RouteManager.DeleteIpForwardEntry2, RouteManager.OsState.pop]; split <;> rfl
  | cons r s =>
    cases r with
    | normal =>
      simp only [RouteManager.DeleteIpForwardEntry2, RouteManager.OsState.pop]
      split <;> rfl
    | fault c => rfl

/-- Trace of the clear loop: one delete call per record, in store order. -/
theorem delete_applied_routes_go_trace :
    ∀ (records : List RouteManager.RouteRecord) (os : RouteManager.OsState),
      (RouteManager.delete_applied_routes_go records os).trace
        = os.trace ++ records.map
            (fun record => RouteManager.OsCall.delete
              (RouteManager.mk_delete_row record.registered_route)) := by
  intro records
  induction records with
  | nil => intro os; simp [RouteManager.delete_applied_routes_go]
  | cons record rest ih =>
    intro os
    show (RouteManager.delete_applied_routes_go rest
        (RouteManager.delete_from_routing_table record.registered_route os).2).trace = _
    rw [ih, delete_from_routing_table_snd, DeleteIpForwardEntry2_trace]
    simp

/-- C8: `delete_applied_routes` always returns success, empties the store,
and issues one OS delete per previously recorded entry (in order),
regardless of how many of those deletes fail. -/
theorem delete_applied_routes_spec (records : List RouteManager.RouteRecord)
    (os : RouteManager.OsState) :
    (RouteManager.delete_applied_routes records os).1 = .ok ()
    ∧ (RouteManager.delete_applied_routes records os).2.1 = []
    ∧ (RouteManager.delete_applied_routes records os).2.2.trace
      = os.trace ++ records.map
          (fun record => RouteManager.OsCall.delete
            (RouteManager.mk_delete_row record.registered_route)) :=
  ⟨rfl, rfl, delete_applied_routes_go_trace records os⟩

/-- C9: the MTU query resolves the family from the address, reads the best
default route's interface MTU, succeeds exactly when a best default exists,
its interface entry is readable and the MTU fits in 16 bits, and in every
other case fails with `GetMtu` (the spec's `MtuUnavailable`). -/
theorem get_mtu_for_route_spec (env : Mtu.Env) (ip : IpAddr) :
    (∀ m, Mtu.handle_get_mtu_for_route env ip = .ok m
      ↔ ∃ route, env.get_best_default_route
            (if ip.is_ipv4 then AddressFamily.Ipv4 else AddressFamily.Ipv6)
            = .ok (some route)
          ∧ env.get_ip_interface_entry
              (if ip.is_ipv4 then AddressFamily.Ipv4 else AddressFamily.Ipv6)
              route.interface_luid = .ok m
          ∧ m < 65536)
    ∧ (∀ e, Mtu.handle_get_mtu_for_route env ip = .error e → e = .GetMtu)
    ∧ (Mtu.handle_get_mtu_for_route env ip = .error .GetMtu
      ↔ ((∃ err, env.get_best_default_route
            (if ip.is_ipv4 then AddressFamily.Ipv4 else AddressFamily.Ipv6) = .error err)
        ∨ env.get_best_default_route
            (if ip.is_ipv4 then AddressFamily.Ipv4 else AddressFamily.Ipv6) = .ok none
        ∨ ∃ route, env.get_best_default_route
              (if ip.is_ipv4 then AddressFamily.Ipv4 else AddressFamily.Ipv6)
              = .ok (some route)
            ∧ ((∃ u, env.get_ip_interface_entry
                  (if ip.is_ipv4 then AddressFamily.Ipv4 else AddressFamily.Ipv6)
                  route.interface_luid = .error u)
              ∨ ∃ m, env.get_ip_interface_entry
                    (if ip.is_ipv4 then AddressFamily.Ipv4 else AddressFamily.Ipv6)
                    route.interface_luid = .ok m
                  ∧ 65536 ≤ m))) := by
  refine ⟨?_, ?_, ?_⟩
  · intro m
    rcases hb : env.get_best_default_route
        (if ip.is_ipv4 then AddressFamily.Ipv4 else AddressFamily.Ipv6) with err | ro
    · simp [Mtu.handle_get_mtu_for_route, Mtu.get_mtu_for_route, hb]
    · rcases ro with _ | route
      · simp [Mtu.handle_get_mtu_for_route, Mtu.get_mtu_for_route, hb]
      · rcases he : env.get_ip_interface_entry
            (if ip.is_ipv4 then AddressFamily.Ipv4 else AddressFamily.Ipv6)
            route.interface_luid with u | mtu
        · simp [Mtu.handle_get_mtu_for_route, Mtu.get_mtu_for_route, hb, he]
        · by_cases hm : mtu < 65536
          · simp only [Mtu.handle_get_mtu_for_route, Mtu.get_mtu_for_route, hb, he, hm,
              if_true]
            constructor
            · intro hc
              injection hc with hc
              exact ⟨route, rfl, by rw [← hc]; exact he, by omega⟩
            · rintro ⟨route2, hroute2, hentry2, hlt⟩
              injection hroute2 with hroute2
              injection hroute2 with hroute2
              rw [← hroute2, he] at hentry2
              injection hentry2 with hentry2
              rw [hentry2]
          · simp only [Mtu.handle_get_mtu_for_route, Mtu.get_mtu_for_route, hb, he, hm,
              if_false]
            constructor
            · intro hc
              exact absurd hc (by simp)
            · rintro ⟨route2, hroute2, hentry2, hlt⟩
              injection hroute2 with hroute2
              injection hroute2 with hroute2
              rw [← hroute2, he] at hentry2
              injection hentry2 with hentry2
              omega
  · intro e he
    rcases hb : env.get_best_default_route
        (if ip.is_ipv4 then AddressFamily.Ipv4 else AddressFamily.Ipv6) with err | ro
    · simp [Mtu.handle_get_mtu_for_route, Mtu.get_mtu_for_route, hb] at he
      exact he.symm
    · rcases ro with _ | route
      · simp [Mtu.handle_get_mtu_for_route, Mtu.get_mtu_for_route, hb] at he
        exact he.symm
      · rcases hee : env.get_ip_interface_entry
            (if ip.is_ipv4 then AddressFamily.Ipv4 else AddressFamily.Ipv6)
            route.interface_luid with u | mtu
        · simp [Mtu.handle_get_mtu_for_route, Mtu.get_mtu_for_route, hb, hee] at he
          exact he.symm
        · by_cases hm : mtu < 65536
          · simp [Mtu.handle_get_mtu_for_route, Mtu.get_mtu_for_route, hb, hee, hm] at he
          · simp [Mtu.handle_get_mtu_for_route, Mtu.get_mtu_for_route, hb, hee, hm] at he
            exact he.symm
  · rcases hb : env.get_best_default_route
        (if ip.is_ipv4 then AddressFamily.Ipv4 else AddressFamily.Ipv6) with err | ro
    · simp [Mtu.handle_get_mtu_for_route, Mtu.get_mtu_for_route, hb]
    · rcases ro with _ | route
      · simp [Mtu.handle_get_mtu_for_route, Mtu.get_mtu_for_route, hb]
      · rcases he : env.get_ip_interface_entry
            (if ip.is_ipv4 then AddressFamily.Ipv4 else AddressFamily.Ipv6)
            route.interface_luid with u | mtu
        · simp only [Mtu.handle_get_mtu_for_route, Mtu.get_mtu_for_route, hb, he]
          constructor
          · intro _
            exact Or.inr (Or.inr ⟨route, rfl, Or.inl ⟨u, he⟩⟩)
          · intro _
            trivial
        · by_cases hm : mtu < 65536
          · simp only [Mtu.handle_get_mtu_for_route, Mtu.get_mtu_for_route, hb, he, hm,
              if_true]
            constructor
            · intro hc
              exact absurd hc (by simp)
            · rintro (⟨err, herr⟩ | hnone | ⟨route2, hroute2, hrest⟩)
              · exact absurd herr (by simp)
              · exact absurd hnone (by simp)
              · injection hroute2 with hroute2
                injection hroute2 with hroute2
                rcases hrest with ⟨u, hu⟩ | ⟨m2, hm2, hm2ge⟩
                · rw [← hroute2, he] at hu
                  exact absurd hu (by simp)
                · rw [← hroute2, he] at hm2
                  injection hm2 with hm2
                  omega
          · simp only [Mtu.handle_get_mtu_for_route, Mtu.get_mtu_for_route, hb, he, hm,
              if_false]
            constructor
            · intro _
              exact Or.inr (Or.inr ⟨route, rfl, Or.inr ⟨mtu, he, by omega⟩⟩)
            · intro _
              trivial

/-- C9 witness: a concrete environment with best default interface 7 and
MTU 1500 yields `ok 1500`. -/
theorem get_mtu_for_route_spec_witness :
    Mtu.handle_get_mtu_for_route Concrete.envM (.v4 5) = .ok 1500 := by
  refine ((get_mtu_for_route_spec Concrete.envM (.v4 5)).1 1500).mpr ?_
  exact ⟨⟨7, ⟨.v4 1, 0⟩⟩, rfl, rfl, by omega⟩
